import Mathlib

set_option maxRecDepth 8000

/-!
Shallow embedding of the mev_sol liquidation-detection core (account decoding,
oracle price resolution, health calculation) and proofs about it.

Modelling conventions:
* Rust `I80F48` fixed-point values are modelled as exact rationals; the range
  of the type (80 integer bits) is enforced at every `checked_*` operation,
  mirroring the overflow checks of the source, while the rounding of the low
  48 fractional bits is abstracted away (all claims below concern branch
  structure, selected fields and exactly representable example values).
* Machine integers (i64, u64, i128, u32) are `Int`/`Nat` with explicit range
  conditions where the source behaviour depends on them.
* Fallible Rust code returns `MResult`; a Rust panic (slice index out of
  bounds, a failed assertion, a failed unwrap) is the `crash` outcome, which
  is distinct from an error return.
* Byte buffers are `List Nat`, each entry a byte value below 256.
-/

/-- The error values the embedded code can return, mirroring the MarginfiError
and anchor ErrorCode variants used by the source. -/
inductive MarginfiError where
  | mathError
  | fixedOraclePriceNegative
  | zeroSupplyInStakePool
  | switchboardInvalidAccount
  | switchboardStalePrice
  | pythPushInvalidAccount
  | pythPushStalePrice
  | pythPushInsufficientVerificationLevel
  | oracleMaxConfidenceExceeded
  | accountParseFailed
  | deprecated
  deriving Repr, DecidableEq

/-- Outcome of a fallible Rust computation: a value, a returned error, or an
aborted process (panic). -/
inductive MResult (α : Type) where
  | ok (a : α)
  | fail (e : MarginfiError)
  | crash
  deriving Repr, DecidableEq

namespace MResult

/-- Sequencing of fallible computations: the `?` operator of the source. -/
def bind {α β : Type} : MResult α → (α → MResult β) → MResult β
  | ok a, f => f a
  | fail e, _ => fail e
  | crash, _ => crash


/-- Whether the computation returned an error (a Rust `Err`). -/
def isFail {α : Type} : MResult α → Prop
  | fail _ => True
  | _ => False

instance {α : Type} (r : MResult α) : Decidable (isFail r) := by
  cases r <;> simp [isFail] <;> infer_instance

end MResult

/-! ## The I80F48 fixed-point domain

The working arithmetic type of the source is `fixed::types::I80F48`: 80 signed
integer bits, 48 fractional bits. Values are modelled as exact rationals; the
representable range is `[-2^79, 2^79)`. -/

/-- A rational is inside the representable range of I80F48. -/
def inI80 (q : ℚ) : Prop := -(2 ^ 79) ≤ q ∧ q < 2 ^ 79

instance (q : ℚ) : Decidable (inI80 q) := by unfold inI80; infer_instance

/-- Model of `I80F48::checked_mul`: the exact product when it stays in range,
an arithmetic error otherwise. -/
def checkedMul (a b : ℚ) : MResult ℚ :=
  if inI80 (a * b) then .ok (a * b) else .fail .mathError

/-- Model of `I80F48::checked_div`: fails on a zero divisor or when the exact
quotient leaves the representable range. -/
def checkedDiv (a b : ℚ) : MResult ℚ :=
  if b = 0 then .fail .mathError
  else if inI80 (a / b) then .ok (a / b) else .fail .mathError

/-- Model of `I80F48::checked_add`. -/
def checkedAdd (a b : ℚ) : MResult ℚ :=
  if inI80 (a + b) then .ok (a + b) else .fail .mathError

/-- Model of `I80F48::checked_sub`. -/
def checkedSub (a b : ℚ) : MResult ℚ :=
  if inI80 (a - b) then .ok (a - b) else .fail .mathError

/-- Signed 64-bit range. -/
def inI64 (n : ℤ) : Prop := -(2 ^ 63) ≤ n ∧ n < 2 ^ 63

instance (n : ℤ) : Decidable (inI64 n) := by unfold inI64; infer_instance

/-- Rust `i64::saturating_sub` on mathematical integers standing for i64
values: the exact difference clamped to the i64 range. -/
def i64SaturatingSub (a b : ℤ) : ℤ :=
  if a - b > 2 ^ 63 - 1 then 2 ^ 63 - 1
  else if a - b < -(2 ^ 63) then -(2 ^ 63)
  else a - b

/-- Rust cast `u64 as i64`: two-complement wrap of a natural below `2^64`. -/
def u64AsI64 (n : ℕ) : ℤ :=
  if n < 2 ^ 63 then (n : ℤ) else (n : ℤ) - 2 ^ 64

/-! ## The 16-byte fixed-point wire form (WrappedI80F48)

Modelled from the spec: the file wrapped_i80f48.rs of the repository is not
under src/ (only its users are). Per the spec, the wire form is the 128-bit
two-complement magnitude of the fixed-point value stored byte for byte over
exactly 16 bytes, and conversion is total and lossless both ways. The
fixed-point value is identified here by its raw 128-bit pattern, an integer
in `[-2^127, 2^127)` (the value itself is that integer divided by `2^48`). -/

/-- Little-endian byte decomposition of a natural into `k` bytes. -/
def encodeNat : ℕ → ℕ → List ℕ
  | 0, _ => []
  | k + 1, u => u % 256 :: encodeNat k (u / 256)

/-- Value of a little-endian byte list. -/
def decodeNat : List ℕ → ℕ
  | [] => 0
  | b :: bs => b + 256 * decodeNat bs

/-- Modelled from the spec: encoding of an I80F48 raw value (an integer in
`[-2^127, 2^127)`) into the 16-byte on-wire form, little endian, two
complement. -/
def wrappedOfI80 (raw : ℤ) : List ℕ :=
  encodeNat 16 (raw % 2 ^ 128).toNat

/-- Modelled from the spec: decoding of the 16-byte on-wire form back into the
raw I80F48 value. Total on all 16-byte buffers. -/
def i80OfWrapped (bytes : List ℕ) : ℤ :=
  if decodeNat bytes < 2 ^ 127 then (decodeNat bytes : ℤ)
  else (decodeNat bytes : ℤ) - 2 ^ 128

/-! ## Binary account decoding (src/utils/parse_account.rs)

The source strips an 8-byte discriminator with the slice expression
`&data[8..]`, which panics when the buffer holds fewer than 8 bytes, and then
reinterprets the rest with `bytemuck::try_from_bytes`, which returns an error
unless the remaining length is exactly the size of the record. Pointer
alignment of the heap buffer is not representable here and is abstracted away
(a misaligned buffer also produces an error return, never a panic). The record
itself is returned as its raw bytes, which is enough for every claim below. -/

/-- Model of Rust `&data[i..]`: panics when `i` exceeds the length. -/
def sliceFrom (data : List ℕ) (i : ℕ) : MResult (List ℕ) :=
  if i ≤ data.length then .ok (data.drop i) else .crash

/-- Model of `parse_account::<T>` for a record type of byte size
`recordSize`: drop the 8 leading bytes (panicking when there are fewer than
8), then require the remainder to be exactly `recordSize` bytes. -/
def parse_account (recordSize : ℕ) (data : List ℕ) : MResult (List ℕ) :=
  MResult.bind (sliceFrom data 8) fun rest =>
    if rest.length = recordSize then .ok rest else .fail .accountParseFailed

/-! ## Switchboard raw-account parsing (parse_swb_ignore_alignment)

The discriminator constant and the byte size of `PullFeedAccountData` come
from the switchboard-on-demand crate, which is not part of src/; their exact
values are irrelevant to every claim, only that the discriminator is 8 bytes
long and the record size is positive. -/

/-- The 8-byte account discriminator of `PullFeedAccountData` (opaque library
constant; only its length matters to the claims). -/
def swbDiscriminator : List ℕ := [196, 27, 108, 80, 40, 93, 5, 76]

/-- Byte size of `PullFeedAccountData` in the switchboard-on-demand crate
(opaque library constant; only its positivity matters to the claims). -/
def pullFeedDataSize : ℕ := 3208

/-- Model of Rust `&data[8 .. 8 + n]`: panics when the upper bound exceeds
the length. -/
def sliceRange (data : List ℕ) (n : ℕ) : MResult (List ℕ) :=
  if 8 + n ≤ data.length then .ok ((data.drop 8).take n) else .crash

/-- Model of `parse_swb_ignore_alignment` (src/marginfi/types/price.rs):
reject buffers shorter than 8 bytes, reject a wrong discriminator, then read
the record from `data[8 .. 8 + size]`; the slice expression panics when the
buffer is shorter than `8 + size`. `try_pod_read_unaligned` on a slice of the
exact size always succeeds for a Pod type, yielding the record bytes. -/
def parse_swb_ignore_alignment (data : List ℕ) : MResult (List ℕ) :=
  if data.length < 8 then .fail .switchboardInvalidAccount
  else if data.take 8 ≠ swbDiscriminator then .fail .switchboardInvalidAccount
  else MResult.bind (sliceRange data pullFeedDataSize) fun bytes => .ok bytes

/-! ## Oracle price feeds (src/marginfi/types/price.rs)

Protocol constants below come from the consts module of the repository, which
is not under src/; they are modelled from the spec: the confidence interval is
the rescaled raw confidence times a fixed multiplier, the default maximum
confidence is 10 percent, and the applied interval is capped at 5 percent of
the price. -/

/-- Modelled from the spec: the fixed multiplier applied to the rescaled pyth
confidence field (value taken from the upstream marginfi constants). -/
def CONF_INTERVAL_MULTIPLE : ℚ := 212 / 100

/-- Modelled from the spec: the fixed multiplier applied to the rescaled
switchboard standard deviation (value taken from the upstream constants). -/
def STD_DEV_MULTIPLE : ℚ := 196 / 100

/-- Modelled from the spec: the unconditional cap of the applied confidence
interval, 5 percent of the price. -/
def MAX_CONF_INTERVAL : ℚ := 5 / 100

/-- The u32 maximum, used as the denominator of the confidence percentage. -/
def U32_MAX : ℚ := 4294967295

/-- Modelled from the spec: the default maximum confidence, 10 percent,
encoded as a u32 percentage. -/
def U32_MAX_DIV_10 : ℚ := U32_MAX / 10

/-- Modelled from the spec: the power-of-ten table EXP_10_I80F48 of the
missing consts module, as a total function. -/
def EXP_10 (n : ℕ) : ℚ := 10 ^ n

/-- Decimal precision constant of switchboard-on-demand results. -/
def SWB_PRECISION : ℕ := 18

/-- Model of `I80F48::from_num` on an i128: panics when the value does not
fit the 80 integer bits. -/
def i80FromNum (n : ℤ) : MResult ℚ :=
  if inI80 (n : ℚ) then .ok (n : ℚ) else .crash

/-- Price bias of a query. -/
inductive PriceBias where
  | low
  | high
  deriving Repr, DecidableEq

/-- Price type of a query. -/
inductive OraclePriceType where
  | timeWeighted
  | realTime
  deriving Repr, DecidableEq

/-- One pyth price record: integer mantissa, u64 confidence, power-of-ten
exponent, publish time. -/
structure PythPrice where
  price : ℤ
  conf : ℕ
  exponent : ℤ
  publish_time : ℤ
  deriving Repr, DecidableEq

/-- The PythPush feed kept by the adapter: instantaneous and EMA records. -/
structure PythPushOraclePriceFeed where
  price : PythPrice
  ema_price : PythPrice
  deriving Repr, DecidableEq

/-- The switchboard current result: value and standard deviation, both i128
at fixed decimal precision. -/
structure SwbCurrentResult where
  value : ℤ
  std_dev : ℤ
  deriving Repr, DecidableEq

/-- The slimmed-down switchboard feed kept by the adapter. -/
structure LitePullFeedAccountData where
  result : SwbCurrentResult
  last_update_timestamp : ℤ
  deriving Repr, DecidableEq

/-- The switchboard feed wrapper. -/
structure SwitchboardPullPriceFeed where
  feed : LitePullFeedAccountData
  deriving Repr, DecidableEq

/-- The fixed price feed: holds only the configured price. -/
structure FixedPriceFeed where
  price : ℚ
  deriving Repr, DecidableEq

/-- The closed adapter variant set of the source (the deprecated variants are
rejected before construction). -/
inductive OraclePriceFeedAdapter where
  | pythPushOracle (feed : PythPushOraclePriceFeed)
  | switchboardPull (feed : SwitchboardPullPriceFeed)
  | fixed (feed : FixedPriceFeed)
  deriving Repr, DecidableEq

/-- Model of `pyth_price_components_to_i80f48`: rescale a mantissa by the
power-of-ten exponent, sign aware. -/
def pyth_price_components_to_i80f48 (price : ℚ) (exponent : ℤ) : MResult ℚ :=
  let scaling_factor := EXP_10 exponent.natAbs
  if exponent = 0 then .ok price
  else if exponent < 0 then checkedDiv price scaling_factor
  else checkedMul price scaling_factor

namespace PythPushOraclePriceFeed

/-- Model of `get_ema_price`. -/
def get_ema_price (f : PythPushOraclePriceFeed) : MResult ℚ :=
  pyth_price_components_to_i80f48 (f.ema_price.price : ℚ) f.ema_price.exponent

/-- Model of `get_unweighted_price`. -/
def get_unweighted_price (f : PythPushOraclePriceFeed) : MResult ℚ :=
  pyth_price_components_to_i80f48 (f.price.price : ℚ) f.price.exponent

/-- Model of `PythPushOraclePriceFeed::get_confidence_interval`: rescaled
confidence times the fixed multiplier, the max-confidence gate (0 meaning the
default 10 percent), then the 5 percent cap. The two `assert!` statements of
the source are the crash outcomes. -/
def get_confidence_interval (f : PythPushOraclePriceFeed) (use_ema : Bool)
    (oracle_max_confidence : ℕ) : MResult ℚ :=
  let p := if use_ema then f.ema_price else f.price
  MResult.bind (pyth_price_components_to_i80f48 (p.conf : ℚ) p.exponent) fun rescaled =>
  MResult.bind (checkedMul rescaled CONF_INTERVAL_MULTIPLE) fun conf_interval =>
  MResult.bind (pyth_price_components_to_i80f48 (p.price : ℚ) p.exponent) fun price =>
  let omc : ℚ := if oracle_max_confidence > 0 then (oracle_max_confidence : ℚ)
                 else U32_MAX_DIV_10
  MResult.bind (checkedMul price omc) fun m =>
  MResult.bind (checkedDiv m U32_MAX) fun max_conf =>
  if conf_interval > max_conf then .fail .oracleMaxConfidenceExceeded
  else
    MResult.bind (checkedMul price MAX_CONF_INTERVAL) fun capped_conf_interval =>
    if ¬ (capped_conf_interval ≥ 0) then .crash
    else if ¬ (conf_interval ≥ 0) then .crash
    else .ok (min conf_interval capped_conf_interval)

/-- Model of `PriceAdapter::get_price_of_type` for the PythPush feed. -/
def get_price_of_type (f : PythPushOraclePriceFeed) (price_type : OraclePriceType)
    (bias : Option PriceBias) (oracle_max_confidence : ℕ) : MResult ℚ :=
  MResult.bind
    (match price_type with
      | .timeWeighted => f.get_ema_price
      | .realTime => f.get_unweighted_price) fun price =>
  match bias with
  | none => .ok price
  | some price_bias =>
    MResult.bind
      (f.get_confidence_interval (price_type = .timeWeighted) oracle_max_confidence)
      fun confidence_interval =>
    match price_bias with
    | .low => checkedSub price confidence_interval
    | .high => checkedAdd price confidence_interval

end PythPushOraclePriceFeed

namespace SwitchboardPullPriceFeed

/-- Model of the private `get_price` of the switchboard feed: the i128 result
value scaled down by the fixed decimal precision. -/
def get_price (f : SwitchboardPullPriceFeed) : MResult ℚ :=
  MResult.bind (i80FromNum f.feed.result.value) fun v =>
  checkedDiv v (EXP_10 SWB_PRECISION)

/-- Model of `SwitchboardPullPriceFeed::get_confidence_interval`. -/
def get_confidence_interval (f : SwitchboardPullPriceFeed)
    (oracle_max_confidence : ℕ) : MResult ℚ :=
  MResult.bind (i80FromNum f.feed.result.std_dev) fun sd =>
  MResult.bind (checkedDiv sd (EXP_10 SWB_PRECISION)) fun rescaled =>
  MResult.bind (checkedMul rescaled STD_DEV_MULTIPLE) fun conf_interval =>
  MResult.bind f.get_price fun price =>
  let omc : ℚ := if oracle_max_confidence > 0 then (oracle_max_confidence : ℚ)
                 else U32_MAX_DIV_10
  MResult.bind (checkedMul price omc) fun m =>
  MResult.bind (checkedDiv m U32_MAX) fun max_conf =>
  if conf_interval > max_conf then .fail .oracleMaxConfidenceExceeded
  else
    MResult.bind (checkedMul price MAX_CONF_INTERVAL) fun max_conf_interval =>
    if ¬ (max_conf_interval ≥ 0) then .crash
    else if ¬ (conf_interval ≥ 0) then .crash
    else .ok (min conf_interval max_conf_interval)

/-- Model of `PriceAdapter::get_price_of_type` for the switchboard feed: the
price type is ignored. -/
def get_price_of_type (f : SwitchboardPullPriceFeed) (_price_type : OraclePriceType)
    (bias : Option PriceBias) (oracle_max_confidence : ℕ) : MResult ℚ :=
  MResult.bind f.get_price fun price =>
  match bias with
  | none => .ok price
  | some price_bias =>
    MResult.bind (f.get_confidence_interval oracle_max_confidence)
      fun confidence_interval =>
    match price_bias with
    | .low => checkedSub price confidence_interval
    | .high => checkedAdd price confidence_interval

end SwitchboardPullPriceFeed

/-- Model of `PriceAdapter::get_price_of_type` for the fixed feed: the
configured price, always, ignoring type, bias and confidence. -/
def FixedPriceFeed.get_price_of_type (f : FixedPriceFeed)
    (_price_type : OraclePriceType) (_bias : Option PriceBias)
    (_oracle_max_confidence : ℕ) : MResult ℚ :=
  .ok f.price

/-- The enum-dispatched `get_price_of_type` of the adapter. -/
def OraclePriceFeedAdapter.get_price_of_type (a : OraclePriceFeedAdapter)
    (price_type : OraclePriceType) (bias : Option PriceBias)
    (oracle_max_confidence : ℕ) : MResult ℚ :=
  match a with
  | .pythPushOracle f => f.get_price_of_type price_type bias oracle_max_confidence
  | .switchboardPull f => f.get_price_of_type price_type bias oracle_max_confidence
  | .fixed f => f.get_price_of_type price_type bias oracle_max_confidence

/-! ## Feed construction and staleness -/

/-- Model of `SwitchboardPullPriceFeed::load_checked` after the byte-level
parse (`parse_swb_ignore_alignment`, modelled above on raw bytes; the Pod
reinterpretation of the record bytes into the feed record is abstracted):
reject the feed as stale when the saturating difference between the reference
timestamp and the last update exceeds the max age cast to i64. -/
def SwitchboardPullPriceFeed.load_checked (feed : LitePullFeedAccountData)
    (current_timestamp : ℤ) (max_age : ℕ) : MResult SwitchboardPullPriceFeed :=
  if i64SaturatingSub current_timestamp feed.last_update_timestamp > u64AsI64 max_age
  then .fail .switchboardStalePrice
  else .ok ⟨feed⟩

/-- The price message carried by a PriceUpdateV2 account. -/
structure PriceFeedMessage where
  price : ℤ
  conf : ℕ
  exponent : ℤ
  publish_time : ℤ
  ema_price : ℤ
  ema_conf : ℕ
  deriving Repr, DecidableEq

/-- A decoded PriceUpdateV2 account: whether its attached verification level
meets the required minimum, and the price message. -/
structure PriceUpdateV2 where
  verified : Bool
  price_message : PriceFeedMessage
  deriving Repr, DecidableEq

/-- Model of `PythPushOraclePriceFeed::load_checked` on an already decoded
PriceUpdateV2 account (the discriminator check of
`load_price_update_v2_checked` is the byte-level step abstracted here).
Modelled from the spec for the part implemented inside the pyth SDK call
`get_price_no_older_than_with_custom_verification_level`: the price message
must meet the minimum verification level, else a distinct named error, and
must not be older than max age measured against the supplied clock, else a
stale-price error. -/
def PythPushOraclePriceFeed.load_checked (u : PriceUpdateV2) (now : ℤ)
    (max_age : ℕ) : MResult PythPushOraclePriceFeed :=
  if ¬ u.verified then .fail .pythPushInsufficientVerificationLevel
  else if now - u.price_message.publish_time > (max_age : ℤ) then
    .fail .pythPushStalePrice
  else
    .ok
      { price :=
          { price := u.price_message.price, conf := u.price_message.conf,
            exponent := u.price_message.exponent,
            publish_time := u.price_message.publish_time },
        ema_price :=
          { price := u.price_message.ema_price, conf := u.price_message.ema_conf,
            exponent := u.price_message.exponent,
            publish_time := u.price_message.publish_time } }

/-- Signed 128-bit range. -/
def inI128 (n : ℤ) : Prop := -(2 ^ 127) ≤ n ∧ n < 2 ^ 127

instance (n : ℤ) : Decidable (inI128 n) := by unfold inI128; infer_instance

/-- Model of `i128::checked_mul`. -/
def i128CheckedMul (a b : ℤ) : MResult ℤ :=
  if inI128 (a * b) then .ok (a * b) else .fail .mathError

/-- Model of `i128::checked_div`: Rust integer division truncates toward
zero. -/
def i128CheckedDiv (a b : ℤ) : MResult ℤ :=
  if b = 0 then .fail .mathError
  else if inI128 (a.tdiv b) then .ok (a.tdiv b) else .fail .mathError

/-- Model of `i128::try_into::<i64>().unwrap()`: panics outside the i64
range. -/
def i64FromI128Unwrap (n : ℤ) : MResult ℤ :=
  if inI64 n then .ok n else .crash

/-- Model of the `OracleAccounts::None` arm of
`OraclePriceFeedAdapter::try_from_config`: the configured fixed price must be
non-negative. -/
def OraclePriceFeedAdapter.try_from_config_fixed (fixed_price : ℚ) :
    MResult OraclePriceFeedAdapter :=
  if fixed_price < 0 then .fail .fixedOraclePriceNegative
  else .ok (.fixed { price := fixed_price })

/-- Model of the `OracleAccounts::StakedWithPythPush` arm of
`try_from_config`. `stake` is the delegated stake read from the already
deserialized stake-pool state (the borsh deserialization and the match on the
Stake variant are abstracted), `lst_supply` the supply of the liquidity-token
mint. In source order: subtract one native unit of principal from the pool
balance with `checked_sub`, load the base pyth feed, reject a zero supply,
then rescale the price and EMA mantissas through i128 arithmetic, narrowing
back to i64 with `try_into().unwrap()`. -/
def OraclePriceFeedAdapter.try_from_config_staked (stake lst_supply : ℕ)
    (u : PriceUpdateV2) (now : ℤ) (max_age : ℕ) :
    MResult OraclePriceFeedAdapter :=
  if stake < 1000000000 then .fail .mathError
  else
    MResult.bind (PythPushOraclePriceFeed.load_checked u now max_age) fun feed =>
    if lst_supply = 0 then .fail .zeroSupplyInStakePool
    else
      MResult.bind (i128CheckedMul feed.price.price ((stake : ℤ) - 1000000000)) fun m1 =>
      MResult.bind (i128CheckedDiv m1 lst_supply) fun q1 =>
      MResult.bind (i64FromI128Unwrap q1) fun new_price =>
      MResult.bind (i128CheckedMul feed.ema_price.price ((stake : ℤ) - 1000000000)) fun m2 =>
      MResult.bind (i128CheckedDiv m2 lst_supply) fun q2 =>
      MResult.bind (i64FromI128Unwrap q2) fun new_ema =>
      .ok (.pythPushOracle
        { feed with
          price := { feed.price with price := new_price },
          ema_price := { feed.ema_price with price := new_ema } })

/-! ## Banks, balances and the health engine (src/marginfi/user.rs)

The Bank record itself (bank.rs) and the Balance record (user_account.rs) are
not under src/; their accounting operations are modelled from the spec:
`shares_to_amount` converts shares through the pool totals with a defined
zero result for the degenerate inputs, and `to_display_amount` divides by ten
to the mint decimals. The health functions below are the src/marginfi/user.rs
code verbatim over these. -/

/-- Bank data needed by the health engine: the maintenance weights, the
oracle max confidence and the fixed price of the config, the mint decimals
and the pool totals. -/
structure Bank where
  asset_weight_maint : ℚ
  liability_weight_maint : ℚ
  oracle_max_confidence : ℕ
  mint_decimals : ℕ
  total_shares : ℚ
  total_underlying : ℚ
  deriving Repr, DecidableEq

/-- Modelled from the spec: `shares_to_amount(shares, pool_total_shares,
pool_total_underlying)` computes the proportional underlying amount through
the pool totals, fails (does not panic) on overflow of the fixed-point
multiply and divide chain, and yields a defined zero when the pool totals are
zero. -/
def Bank.get_asset_amount (b : Bank) (shares : ℚ) : MResult ℚ :=
  if b.total_shares = 0 then .ok 0
  else
    MResult.bind (checkedMul shares b.total_underlying) fun x =>
    checkedDiv x b.total_shares

/-- Modelled from the spec: `to_display_amount` rescales a raw amount into
display units, dividing by ten to the mint decimals in fixed point. -/
def Bank.get_display_asset (b : Bank) (amount : ℚ) : MResult ℚ :=
  checkedDiv amount (EXP_10 b.mint_decimals)

/-- The two sides of a balance. -/
inductive BalanceSide where
  | assets
  | liabilities
  deriving Repr, DecidableEq

/-- A balance of a borrower in one bank. -/
structure Balance where
  asset_shares : ℚ
  liability_shares : ℚ
  deriving Repr, DecidableEq

/-- Modelled from the spec: a balance is empty on a side when the shares of
that side are zero. -/
def Balance.is_empty (bal : Balance) (side : BalanceSide) : Bool :=
  match side with
  | .assets => decide (bal.asset_shares = 0)
  | .liabilities => decide (bal.liability_shares = 0)

/-- One active balance with its bank and constructed price feed. -/
structure BankAccount where
  bank : Bank
  price_feed : OraclePriceFeedAdapter
  balance : Balance

/-- Model of `BankAccount::asset_value` (src/marginfi/user.rs line 126),
verbatim: the early return tests `is_empty(BalanceSide::Liabilities)`, the
liability side, exactly as the source does. -/
def BankAccount.asset_value (ba : BankAccount) : MResult ℚ :=
  if ba.balance.is_empty .liabilities then .ok 0
  else
    MResult.bind
      (ba.price_feed.get_price_of_type .realTime (some .low)
        ba.bank.oracle_max_confidence) fun price =>
    MResult.bind (ba.bank.get_asset_amount ba.balance.asset_shares) fun asset =>
    MResult.bind (checkedMul asset price) fun asset_value_with_decimals =>
    ba.bank.get_display_asset asset_value_with_decimals

/-- Model of `BankAccount::liability_value` (src/marginfi/user.rs line
148). -/
def BankAccount.liability_value (ba : BankAccount) : MResult ℚ :=
  if ba.balance.is_empty .liabilities then .ok 0
  else
    MResult.bind
      (ba.price_feed.get_price_of_type .realTime (some .low)
        ba.bank.oracle_max_confidence) fun price =>
    MResult.bind (ba.bank.get_asset_amount ba.balance.liability_shares) fun liability =>
    MResult.bind (checkedMul liability price) fun liability_value_with_decimals =>
    ba.bank.get_display_asset liability_value_with_decimals

/-- A borrower account as the health engine sees it: the active balances with
their banks and feeds. -/
structure MarginfiUserAccount where
  bank_accounts : List BankAccount

/-- Model of `MarginfiUserAccount::asset_value`: the fallible fold of the
per-bank asset values. -/
def MarginfiUserAccount.asset_value (u : MarginfiUserAccount) : MResult ℚ :=
  u.bank_accounts.foldl
    (fun acc ba =>
      MResult.bind acc fun a =>
      MResult.bind ba.asset_value fun v => .ok (a + v))
    (.ok 0)

/-- Model of `MarginfiUserAccount::liability_value`. -/
def MarginfiUserAccount.liability_value (u : MarginfiUserAccount) : MResult ℚ :=
  u.bank_accounts.foldl
    (fun acc ba =>
      MResult.bind acc fun a =>
      MResult.bind ba.liability_value fun v => .ok (a + v))
    (.ok 0)

/-- Model of `MarginfiUserAccount::maintenance`: accumulate the weighted
asset and liability totals over the balances, then subtract. -/
def MarginfiUserAccount.maintenance (u : MarginfiUserAccount) : MResult ℚ :=
  MResult.bind
    (u.bank_accounts.foldl
      (fun acc ba =>
        MResult.bind acc fun totals =>
        MResult.bind ba.asset_value fun asset_value =>
        MResult.bind ba.liability_value fun liability_value =>
        MResult.bind (checkedMul asset_value ba.bank.asset_weight_maint) fun wa =>
        MResult.bind (checkedMul liability_value ba.bank.liability_weight_maint) fun wl =>
        .ok (totals.1 + wa, totals.2 + wl))
      (.ok ((0 : ℚ), (0 : ℚ))))
    fun totals => .ok (totals.1 - totals.2)

/-- The per-balance asset value the spec formula prescribes, written from the
words of the spec for comparison with `BankAccount.asset_value`: zero exactly
for zero asset shares (with no price lookup), otherwise
`display(shares_to_amount(asset_shares) * price(RealTime, Low,
oracle_max_confidence))`. -/
def specBalanceAssetValue (ba : BankAccount) : MResult ℚ :=
  if ba.balance.asset_shares = 0 then .ok 0
  else
    MResult.bind
      (ba.price_feed.get_price_of_type .realTime (some .low)
        ba.bank.oracle_max_confidence) fun price =>
    MResult.bind (ba.bank.get_asset_amount ba.balance.asset_shares) fun asset =>
    MResult.bind (checkedMul asset price) fun v =>
    ba.bank.get_display_asset v

/-! ## Spec-side confidence quantities (for C4) -/

/-- The max-confidence threshold actually used: the caller value when
positive, the default ten percent of the u32 range otherwise. -/
def confThreshold (omc : ℕ) : ℚ :=
  if omc > 0 then (omc : ℚ) else U32_MAX_DIV_10

/-- Sign-aware power-of-ten rescaling, as the spec words it: a negative
exponent divides, otherwise multiplies (a zero exponent multiplies by
one). -/
def pythScale (q : ℚ) (e : ℤ) : ℚ :=
  if e < 0 then q / 10 ^ e.natAbs else q * 10 ^ e.natAbs

/-- The switchboard price as the spec describes it. -/
def swbSpecPrice (sf : SwitchboardPullPriceFeed) : ℚ :=
  (sf.feed.result.value : ℚ) / EXP_10 SWB_PRECISION

/-- The switchboard confidence interval as the spec describes it: the raw
standard deviation rescaled, times the fixed multiplier. -/
def swbSpecInterval (sf : SwitchboardPullPriceFeed) : ℚ :=
  (sf.feed.result.std_dev : ℚ) / EXP_10 SWB_PRECISION * STD_DEV_MULTIPLE

/-- The pyth record a query selects: EMA when the query is time weighted. -/
def pythSel (pf : PythPushOraclePriceFeed) (use_ema : Bool) : PythPrice :=
  if use_ema then pf.ema_price else pf.price

/-- The selected pyth price as the spec describes it. -/
def pythSpecPrice (pf : PythPushOraclePriceFeed) (use_ema : Bool) : ℚ :=
  pythScale ((pythSel pf use_ema).price : ℚ) (pythSel pf use_ema).exponent

/-- The pyth confidence interval as the spec describes it: the raw confidence
field rescaled, times the fixed multiplier. -/
def pythSpecInterval (pf : PythPushOraclePriceFeed) (use_ema : Bool) : ℚ :=
  pythScale ((pythSel pf use_ema).conf : ℚ) (pythSel pf use_ema).exponent
    * CONF_INTERVAL_MULTIPLE

/-- The maximum allowed confidence: price times the threshold fraction. -/
def specMaxConf (price : ℚ) (omc : ℕ) : ℚ :=
  price * confThreshold omc / U32_MAX
/-! ## Concrete health-engine scenarios

A bank with pool ratio one, zero mint decimals and a fixed price feed at one
USD, so that share counts are directly USD values; weights are the worked
example of the spec (asset maintenance weight 0.95, liability maintenance
weight 1.05). -/

/-- The example bank of the worked scenario. -/
def exampleBank : Bank :=
  { asset_weight_maint := 95 / 100
    liability_weight_maint := 105 / 100
    oracle_max_confidence := 0
    mint_decimals := 0
    total_shares := 1
    total_underlying := 1 }

/-- A fixed feed quoting one USD. -/
def feedOne : OraclePriceFeedAdapter := .fixed { price := 1 }

/-- A pyth feed whose price rescaling overflows the fixed-point range, so
that any price lookup on it returns an arithmetic error: it witnesses
extensionally that a price lookup was made. -/
def overflowingPythFeed : OraclePriceFeedAdapter :=
  .pythPushOracle
    { price := { price := 9223372036854775807, conf := 0, exponent := 19, publish_time := 0 }
      ema_price := { price := 9223372036854775807, conf := 0, exponent := 19, publish_time := 0 } }

/-- A pure deposit: 90 USD worth of asset shares, no liabilities. -/
def depositOnly : BankAccount :=
  { bank := exampleBank
    price_feed := feedOne
    balance := { asset_shares := 90, liability_shares := 0 } }

/-- A pure borrow of 81.82 USD against the failing feed. -/
def borrowOnlyBadFeed : BankAccount :=
  { bank := exampleBank
    price_feed := overflowingPythFeed
    balance := { asset_shares := 0, liability_shares := 4091 / 50 } }

/-- A pure borrow of 81.82 USD at price one. -/
def borrowOnly : BankAccount :=
  { bank := exampleBank
    price_feed := feedOne
    balance := { asset_shares := 0, liability_shares := 4091 / 50 } }

/-- The worked-example account: a 90 USD deposit and an 81.82 USD borrow. -/
def exampleAccount : MarginfiUserAccount :=
  { bank_accounts := [depositOnly, borrowOnly] }
/-- A switchboard feed record 6 seconds old at clock 100. -/
def swbFeed94 : LitePullFeedAccountData :=
  { result := { value := 0, std_dev := 0 }, last_update_timestamp := 94 }

/-- A switchboard feed record exactly 5 seconds old at clock 100. -/
def swbFeed95 : LitePullFeedAccountData :=
  { result := { value := 0, std_dev := 0 }, last_update_timestamp := 95 }

/-- A verified pyth update published 6 seconds before clock 100. -/
def pythUpdate94 : PriceUpdateV2 :=
  { verified := true
    price_message :=
      { price := 7, conf := 1, exponent := 0, publish_time := 94, ema_price := 7,
        ema_conf := 1 } }

/-- A verified pyth update published exactly 5 seconds before clock 100. -/
def pythUpdate95 : PriceUpdateV2 :=
  { verified := true
    price_message :=
      { price := 7, conf := 1, exponent := 0, publish_time := 95, ema_price := 7,
        ema_conf := 1 } }
/-- A verified pyth update at clock 100: price mantissa 80, EMA mantissa 60,
exponent zero. -/
def pythUpdateSimple : PriceUpdateV2 :=
  { verified := true
    price_message :=
      { price := 80, conf := 1, exponent := 0, publish_time := 100, ema_price := 60,
        ema_conf := 1 } }
/-- A switchboard feed with value one USD (at the fixed 18-decimal scale) and
a NEGATIVE standard deviation field. -/
def negStdDevFeed : SwitchboardPullPriceFeed :=
  { feed := { result := { value := 1000000000000000000,
                          std_dev := -1000000000000000000 },
              last_update_timestamp := 0 } }
/-- A switchboard feed at price one whose standard deviation corresponds to a
19.6 percent confidence interval. -/
def conf196Feed : SwitchboardPullPriceFeed :=
  { feed := { result := { value := 1000000000000000000,
                          std_dev := 100000000000000000 },
              last_update_timestamp := 0 } }

/-! ## Proofs -/

namespace MResult

@[simp] theorem bind_ok {α β : Type} (a : α) (f : α → MResult β) :
    bind (ok a) f = f a := rfl

@[simp] theorem bind_fail {α β : Type} (e : MarginfiError) (f : α → MResult β) :
    bind (fail e) f = fail e := rfl

@[simp] theorem bind_crash {α β : Type} (f : α → MResult β) :
    bind crash f = crash := rfl

end MResult

/-! ## Helper lemmas for the wire codec -/

theorem decodeNat_encodeNat (k u : ℕ) : decodeNat (encodeNat k u) = u % 256 ^ k := by
  induction k generalizing u with
  | zero => simp [encodeNat, decodeNat, Nat.mod_one]
  | succ k ih =>
    have h1 : u % (256 * 256 ^ k) % 256 = u % 256 :=
      Nat.mod_mod_of_dvd u ⟨256 ^ k, rfl⟩
    have h2 : u % (256 * 256 ^ k) / 256 = u / 256 % 256 ^ k :=
      Nat.mod_mul_right_div_self u 256 (256 ^ k)
    have h3 := Nat.div_add_mod (u % (256 * 256 ^ k)) 256
    simp only [encodeNat, decodeNat, ih]
    rw [show (256 : ℕ) ^ (k + 1) = 256 * 256 ^ k from by ring]
    omega

theorem encodeNat_decodeNat (bs : List ℕ) (h : ∀ b ∈ bs, b < 256) :
    encodeNat bs.length (decodeNat bs) = bs := by
  induction bs with
  | nil => simp [encodeNat, decodeNat]
  | cons b bs ih =>
    have hb : b < 256 := h b (by simp)
    have hmod : (b + 256 * decodeNat bs) % 256 = b := by
      rw [Nat.add_mul_mod_self_left]
      exact Nat.mod_eq_of_lt hb
    have hdiv : (b + 256 * decodeNat bs) / 256 = decodeNat bs := by
      rw [Nat.add_mul_div_left _ _ (by norm_num : (0:ℕ) < 256)]
      simp [Nat.div_eq_of_lt hb]
    simp only [List.length_cons, encodeNat, decodeNat, hmod, hdiv]
    exact congrArg (b :: ·) (ih fun x hx => h x (by simp [hx]))

theorem decodeNat_lt (bs : List ℕ) (h : ∀ b ∈ bs, b < 256) :
    decodeNat bs < 256 ^ bs.length := by
  induction bs with
  | nil => simp [decodeNat]
  | cons b bs ih =>
    have hb : b < 256 := h b (by simp)
    have hd : decodeNat bs < 256 ^ bs.length := ih fun x hx => h x (by simp [hx])
    have hstep : b + 256 * decodeNat bs < 256 * 256 ^ bs.length := by
      calc b + 256 * decodeNat bs < 256 + 256 * decodeNat bs := by omega
        _ = 256 * (decodeNat bs + 1) := by ring
        _ ≤ 256 * 256 ^ bs.length := Nat.mul_le_mul_left 256 hd
    simpa [decodeNat, pow_succ, Nat.mul_comm] using hstep

theorem decodeNat_lt_128 (bs : List ℕ) (hlen : bs.length = 16)
    (h : ∀ b ∈ bs, b < 256) : decodeNat bs < 2 ^ 128 := by
  have := decodeNat_lt bs h
  rw [hlen] at this
  exact lt_of_lt_of_le this (by norm_num)

/-- C6. For every I80F48 value (represented by its raw 128-bit pattern, an
integer in the two-complement range), wire-encoding through WrappedI80F48 and
decoding back is the identity; and every 16-byte wire value decodes to a
representable value whose re-encoding gives back the same bytes, so both
conversions are total and lossless. -/
theorem c6_wrapped_i80f48_roundtrip :
    (∀ raw : ℤ, -(2 ^ 127) ≤ raw → raw < 2 ^ 127 →
      i80OfWrapped (wrappedOfI80 raw) = raw) ∧
    (∀ bytes : List ℕ, bytes.length = 16 → (∀ b ∈ bytes, b < 256) →
      -(2 ^ 127) ≤ i80OfWrapped bytes ∧ i80OfWrapped bytes < 2 ^ 127 ∧
      wrappedOfI80 (i80OfWrapped bytes) = bytes) := by
  have hdec16 : ∀ u : ℕ, u < 2 ^ 128 → decodeNat (encodeNat 16 u) = u := by
    intro u hu
    rw [decodeNat_encodeNat]
    exact Nat.mod_eq_of_lt (lt_of_lt_of_le hu (by norm_num))
  have hpow : ((2 : ℤ) ^ 128) = ((2 ^ 128 : ℕ) : ℤ) := by norm_num
  constructor
  · intro raw h1 h2
    have hmodrange : 0 ≤ raw % 2 ^ 128 ∧ raw % 2 ^ 128 < 2 ^ 128 := by
      constructor
      · exact Int.emod_nonneg raw (by norm_num)
      · exact Int.emod_lt_of_pos raw (by norm_num)
    have hlt : (raw % 2 ^ 128).toNat < 2 ^ 128 := by omega
    by_cases hneg : 0 ≤ raw
    · have hmod : raw % 2 ^ 128 = raw := Int.emod_eq_of_lt hneg (by omega)
      unfold wrappedOfI80 i80OfWrapped
      rw [hdec16 _ hlt]
      split <;> omega
    · have hmod : raw % 2 ^ 128 = raw + 2 ^ 128 := by
        have h3 : (raw + 2 ^ 128 * 1) % 2 ^ 128 = raw % 2 ^ 128 :=
          Int.add_mul_emod_self_left raw (2 ^ 128) 1
        have h4 : (raw + 2 ^ 128) % 2 ^ 128 = raw + 2 ^ 128 :=
          Int.emod_eq_of_lt (by omega) (by omega)
        omega
      unfold wrappedOfI80 i80OfWrapped
      rw [hdec16 _ hlt]
      split <;> omega
  · intro bytes hlen hb
    have hu : decodeNat bytes < 2 ^ 128 := decodeNat_lt_128 bytes hlen hb
    by_cases hsmall : decodeNat bytes < 2 ^ 127
    · have hval : i80OfWrapped bytes = (decodeNat bytes : ℤ) := by
        unfold i80OfWrapped
        rw [if_pos hsmall]
      refine ⟨by omega, by omega, ?_⟩
      rw [hval]
      unfold wrappedOfI80
      have hmod : ((decodeNat bytes : ℤ)) % 2 ^ 128 = (decodeNat bytes : ℤ) :=
        Int.emod_eq_of_lt (Int.natCast_nonneg _) (by omega)
      rw [hmod]
      rw [show ((decodeNat bytes : ℤ)).toNat = decodeNat bytes from by omega]
      rw [← hlen]
      exact encodeNat_decodeNat bytes hb
    · have hval : i80OfWrapped bytes = (decodeNat bytes : ℤ) - 2 ^ 128 := by
        unfold i80OfWrapped
        rw [if_neg hsmall]
      refine ⟨by omega, by omega, ?_⟩
      rw [hval]
      unfold wrappedOfI80
      have hmod : ((decodeNat bytes : ℤ) - 2 ^ 128) % 2 ^ 128 = (decodeNat bytes : ℤ) := by
        have h3 : ((decodeNat bytes : ℤ) - 2 ^ 128 + 2 ^ 128 * 1) % 2 ^ 128
            = ((decodeNat bytes : ℤ) - 2 ^ 128) % 2 ^ 128 :=
          Int.add_mul_emod_self_left ((decodeNat bytes : ℤ) - 2 ^ 128) (2 ^ 128) 1
        have h4 : ((decodeNat bytes : ℤ)) % 2 ^ 128 = (decodeNat bytes : ℤ) :=
          Int.emod_eq_of_lt (Int.natCast_nonneg _) (by omega)
        omega
      rw [hmod]
      rw [show ((decodeNat bytes : ℤ)).toNat = decodeNat bytes from by omega]
      rw [← hlen]
      exact encodeNat_decodeNat bytes hb

/-- C3. The claim says decoding rejects every buffer whose length is not
exactly 8 plus the record size with a decode error and never panics. The
source contradicts the claim on short buffers: `&data[8..]` panics whenever
the buffer holds fewer than 8 bytes (first two conjuncts, shown at a 7-byte
buffer and for every short buffer); for buffers of at least 8 bytes the
wrong-length rejection of the claim does hold (third conjunct). -/
theorem c3_parse_account_short_buffer_panics :
    parse_account 544 (List.replicate 7 0) = .crash ∧
    (∀ (recordSize : ℕ) (data : List ℕ), data.length < 8 →
      parse_account recordSize data = .crash) ∧
    (∀ (recordSize : ℕ) (data : List ℕ), 8 ≤ data.length →
      data.length ≠ 8 + recordSize →
      parse_account recordSize data = .fail .accountParseFailed) := by
  refine ⟨by decide, ?_, ?_⟩
  · intro recordSize data h
    simp only [parse_account, sliceFrom]
    rw [if_neg (by omega)]
    rfl
  · intro recordSize data h8 hne
    simp only [parse_account, sliceFrom]
    rw [if_pos h8]
    simp only [MResult.bind_ok, List.length_drop]
    rw [if_neg (by omega)]

/-- C10. The claim says `parse_swb_ignore_alignment` returns a parsed feed or
a SwitchboardInvalidAccount error and never panics. The error paths of the
claim do hold (conjuncts two and three: buffers shorter than 8 bytes and
buffers with a wrong discriminator), but the never-panics part is false: a
buffer that carries exactly the 8-byte discriminator and nothing else passes
both guards and then panics in the slice `&data[8 .. 8 + size]` (first
conjunct); buffers long enough parse successfully (last conjunct). -/
theorem c10_parse_swb_ignore_alignment :
    parse_swb_ignore_alignment swbDiscriminator = .crash ∧
    (∀ data : List ℕ, data.length < 8 →
      parse_swb_ignore_alignment data = .fail .switchboardInvalidAccount) ∧
    (∀ data : List ℕ, data.take 8 ≠ swbDiscriminator →
      parse_swb_ignore_alignment data = .fail .switchboardInvalidAccount) ∧
    (∀ data : List ℕ, 8 + pullFeedDataSize ≤ data.length →
      data.take 8 = swbDiscriminator →
      parse_swb_ignore_alignment data = .ok ((data.drop 8).take pullFeedDataSize)) := by
  refine ⟨by decide, ?_, ?_, ?_⟩
  · intro data h
    simp only [parse_swb_ignore_alignment]
    rw [if_pos h]
  · intro data h
    by_cases hlen : data.length < 8
    · simp only [parse_swb_ignore_alignment]
      rw [if_pos hlen]
    · simp only [parse_swb_ignore_alignment]
      rw [if_neg hlen, if_pos h]
  · intro data hlen hdisc
    simp only [parse_swb_ignore_alignment, sliceRange]
    rw [if_neg (by omega), if_neg (by simp [hdisc]), if_pos hlen]
    rfl

/-- C7. Constructing the Fixed oracle variant fails exactly when the
configured fixed price is negative (and yields the Fixed feed holding that
price otherwise), and a Fixed feed answers every query, for every price type,
bias and max-confidence argument, with the configured price, never
failing. -/
theorem c7_fixed_price_feed :
    ∀ (p : ℚ) (t : OraclePriceType) (b : Option PriceBias) (c : ℕ),
      ((OraclePriceFeedAdapter.try_from_config_fixed p).isFail ↔ p < 0) ∧
      (0 ≤ p → OraclePriceFeedAdapter.try_from_config_fixed p =
        .ok (.fixed { price := p })) ∧
      (∀ f : FixedPriceFeed,
        (OraclePriceFeedAdapter.fixed f).get_price_of_type t b c = .ok f.price) := by
  intro p t b c
  refine ⟨?_, ?_, fun f => rfl⟩
  · unfold OraclePriceFeedAdapter.try_from_config_fixed
    by_cases h : p < 0
    · rw [if_pos h]
      simpa [MResult.isFail]
    · rw [if_neg h]
      simp [MResult.isFail]
      exact not_lt.mp h
  · intro h
    unfold OraclePriceFeedAdapter.try_from_config_fixed
    rw [if_neg (not_lt.mpr h)]


/-- C1. The claim (and the spec formula) makes the asset value of a balance
with non-zero asset shares equal to display(shares_to_amount(asset_shares)
times the low-biased real-time price), and makes a balance with zero asset
shares contribute zero with no price lookup. The source guards
`BankAccount::asset_value` on the LIABILITY side instead: a pure deposit
(90 USD of asset shares, zero liabilities) gets asset value 0 where the spec
formula gives 90 (first three conjuncts), and a balance with zero asset
shares but active liabilities does run the price lookup, so a failing feed
aborts the computation that the claim says must yield zero without any
lookup (last two conjuncts). -/
theorem c1_asset_value_guards_wrong_side :
    BankAccount.asset_value depositOnly = .ok 0 ∧
    specBalanceAssetValue depositOnly = .ok 90 ∧
    MarginfiUserAccount.asset_value { bank_accounts := [depositOnly] } = .ok 0 ∧
    BankAccount.asset_value borrowOnlyBadFeed = .fail .mathError ∧
    specBalanceAssetValue borrowOnlyBadFeed = .ok 0 := by
  refine ⟨?_, ?_, ?_, ?_, ?_⟩
  · norm_num [BankAccount.asset_value, depositOnly, Balance.is_empty, exampleBank]
  · norm_num [specBalanceAssetValue, depositOnly, exampleBank, feedOne,
      OraclePriceFeedAdapter.get_price_of_type, FixedPriceFeed.get_price_of_type,
      Bank.get_asset_amount, Bank.get_display_asset, checkedMul, checkedDiv,
      inI80, EXP_10]
  · norm_num [MarginfiUserAccount.asset_value, BankAccount.asset_value,
      depositOnly, Balance.is_empty, exampleBank]
  · norm_num [BankAccount.asset_value, borrowOnlyBadFeed, Balance.is_empty,
      exampleBank, overflowingPythFeed, OraclePriceFeedAdapter.get_price_of_type,
      PythPushOraclePriceFeed.get_price_of_type,
      PythPushOraclePriceFeed.get_unweighted_price,
      pyth_price_components_to_i80f48, checkedMul, checkedDiv, inI80, EXP_10]
  · norm_num [specBalanceAssetValue, borrowOnlyBadFeed]

/-- C2. At the worked example of the spec (and of the comment block in
src/marginfi/mod.rs) — a 90 USD deposit with maintenance asset weight 0.95
and an 81.82 USD borrow with maintenance liability weight 1.05 — the claimed
margin is 90 times 0.95 minus 81.82 times 1.05, approximately -0.41 (second
conjunct: exactly -0.411). The source instead computes -85.911 (first
conjunct), because the liability-side guard of `BankAccount::asset_value`
zeroes the asset value of the pure deposit; the two values differ (third
conjunct). Both are negative, so the liquidatable verdict agrees here, but
the margin value of the claim does not hold of the code. -/
theorem c2_maintenance_worked_example :
    MarginfiUserAccount.maintenance exampleAccount = .ok (-(85911 / 1000)) ∧
    (90 : ℚ) * (95 / 100) - (4091 / 50) * (105 / 100) = -(411 / 1000) ∧
    (-(85911 / 1000) : ℚ) ≠ -(411 / 1000) := by
  refine ⟨?_, by norm_num, by norm_num⟩
  norm_num [MarginfiUserAccount.maintenance, exampleAccount, depositOnly,
    borrowOnly, BankAccount.asset_value, BankAccount.liability_value,
    Balance.is_empty, exampleBank, feedOne,
    OraclePriceFeedAdapter.get_price_of_type, FixedPriceFeed.get_price_of_type,
    Bank.get_asset_amount, Bank.get_display_asset, checkedMul, checkedDiv,
    inI80, EXP_10]

/-- For i64-range arguments and a threshold below the saturation value, the
saturating difference exceeds the threshold exactly when the exact difference
does. -/
theorem i64SaturatingSub_gt_iff (a b m : ℤ)
    (hm0 : 0 ≤ m) (hm : m < 2 ^ 63 - 1) :
    i64SaturatingSub a b > m ↔ a - b > m := by
  unfold i64SaturatingSub
  split
  · constructor <;> intro <;> omega
  · split
    · constructor <;> intro <;> omega
    · constructor <;> intro <;> omega

/-- C5. Staleness at construction. For the switchboard feed (source:
`SwitchboardPullPriceFeed::load_checked`), with the timestamps in i64 range
and a configured max age below the saturation threshold, construction fails
with the staleness error exactly when the feed age exceeds the max age, and a
feed exactly max age old succeeds. For the pyth feed (the staleness check
lives in the pyth SDK call and is modelled from the spec), on a feed meeting
the verification level, construction fails with the stale-price error exactly
when the publish time is more than max age before the clock; exactly max age
before succeeds. -/
theorem c5_staleness_at_construction :
    ∀ (feed : LitePullFeedAccountData) (u : PriceUpdateV2) (now : ℤ) (max_age : ℕ),
      (inI64 now → inI64 feed.last_update_timestamp → (max_age : ℤ) < 2 ^ 63 - 1 →
        (SwitchboardPullPriceFeed.load_checked feed now max_age
            = .fail .switchboardStalePrice
          ↔ now - feed.last_update_timestamp > (max_age : ℤ)) ∧
        (feed.last_update_timestamp = now - (max_age : ℤ) →
          SwitchboardPullPriceFeed.load_checked feed now max_age = .ok ⟨feed⟩)) ∧
      (u.verified = true →
        (PythPushOraclePriceFeed.load_checked u now max_age
            = .fail .pythPushStalePrice
          ↔ now - u.price_message.publish_time > (max_age : ℤ)) ∧
        (u.price_message.publish_time = now - (max_age : ℤ) →
          ∃ f, PythPushOraclePriceFeed.load_checked u now max_age = .ok f)) := by
  intro feed u now max_age
  constructor
  · intro hnow hlast hage
    have hcast : u64AsI64 max_age = (max_age : ℤ) := by
      unfold u64AsI64
      rw [if_pos (by omega)]
    have hs := i64SaturatingSub_gt_iff now feed.last_update_timestamp (max_age : ℤ)
      (Int.natCast_nonneg _) hage
    have hiff : SwitchboardPullPriceFeed.load_checked feed now max_age
        = .fail .switchboardStalePrice
        ↔ now - feed.last_update_timestamp > (max_age : ℤ) := by
      unfold SwitchboardPullPriceFeed.load_checked
      rw [hcast]
      by_cases h : now - feed.last_update_timestamp > (max_age : ℤ)
      · rw [if_pos (hs.mpr h)]
        simp [h]
      · rw [if_neg (fun hc => h (hs.mp hc))]
        simp [h]
    refine ⟨hiff, ?_⟩
    intro hexact
    unfold SwitchboardPullPriceFeed.load_checked
    rw [hcast]
    rw [if_neg (fun hc => by omega : ¬ i64SaturatingSub now feed.last_update_timestamp > (max_age : ℤ))]
  · intro hver
    have hiff : PythPushOraclePriceFeed.load_checked u now max_age
        = .fail .pythPushStalePrice
        ↔ now - u.price_message.publish_time > (max_age : ℤ) := by
      unfold PythPushOraclePriceFeed.load_checked
      rw [if_neg (by simp [hver])]
      by_cases h : now - u.price_message.publish_time > (max_age : ℤ)
      · rw [if_pos h]
        simp [h]
      · rw [if_neg h]
        simp [h]
    refine ⟨hiff, ?_⟩
    intro hexact
    unfold PythPushOraclePriceFeed.load_checked
    rw [if_neg (by simp [hver]), if_neg (by omega)]
    exact ⟨_, rfl⟩


/-- Evaluation of the staleness boundary at concrete inputs: with max age 5,
age 6 is rejected and age 5 passes, for both feed kinds. -/
theorem staleness_boundary_example :
    SwitchboardPullPriceFeed.load_checked swbFeed94 100 5
      = .fail .switchboardStalePrice ∧
    SwitchboardPullPriceFeed.load_checked swbFeed95 100 5 = .ok ⟨swbFeed95⟩ ∧
    PythPushOraclePriceFeed.load_checked pythUpdate94 100 5
      = .fail .pythPushStalePrice ∧
    (∃ f, PythPushOraclePriceFeed.load_checked pythUpdate95 100 5 = .ok f) := by
  refine ⟨by decide, by decide, by decide,
    ⟨{ price := { price := 7, conf := 1, exponent := 0, publish_time := 95 },
       ema_price := { price := 7, conf := 1, exponent := 0, publish_time := 95 } },
     by decide⟩⟩

/-- Binding a computation against pure return is the computation itself. -/
theorem MResult.bind_pure {α : Type} (x : MResult α) :
    MResult.bind x (fun a => .ok a) = x := by
  cases x <;> rfl

/-- C8. For a PythPush feed, a TimeWeighted query (without bias) is answered
from the EMA price record and a RealTime query from the instantaneous one,
both through `pyth_price_components_to_i80f48`; and that rescaling is
sign-aware in the exponent: a zero exponent returns the mantissa unchanged, a
negative exponent divides the mantissa by ten to the absolute exponent, a
positive exponent multiplies by it (whenever the result stays in the
fixed-point range; an out-of-range result is an arithmetic error, not a wrong
value). -/
theorem c8_pyth_price_selection_and_scaling :
    ∀ (f : PythPushOraclePriceFeed) (c : ℕ),
      (f.get_price_of_type .timeWeighted none c
        = pyth_price_components_to_i80f48 (f.ema_price.price : ℚ) f.ema_price.exponent) ∧
      (f.get_price_of_type .realTime none c
        = pyth_price_components_to_i80f48 (f.price.price : ℚ) f.price.exponent) ∧
      (∀ (m e : ℤ),
        (e = 0 → pyth_price_components_to_i80f48 (m : ℚ) e = .ok (m : ℚ)) ∧
        (e < 0 → inI80 ((m : ℚ) / 10 ^ e.natAbs) →
          pyth_price_components_to_i80f48 (m : ℚ) e = .ok ((m : ℚ) / 10 ^ e.natAbs)) ∧
        (0 < e → inI80 ((m : ℚ) * 10 ^ e.natAbs) →
          pyth_price_components_to_i80f48 (m : ℚ) e = .ok ((m : ℚ) * 10 ^ e.natAbs))) := by
  intro f c
  refine ⟨?_, ?_, ?_⟩
  · unfold PythPushOraclePriceFeed.get_price_of_type PythPushOraclePriceFeed.get_ema_price
    exact MResult.bind_pure _
  · unfold PythPushOraclePriceFeed.get_price_of_type
      PythPushOraclePriceFeed.get_unweighted_price
    exact MResult.bind_pure _
  · intro m e
    refine ⟨?_, ?_, ?_⟩
    · intro h
      unfold pyth_price_components_to_i80f48
      rw [if_pos h]
    · intro h hin
      unfold pyth_price_components_to_i80f48 checkedDiv EXP_10
      rw [if_neg (by omega), if_pos h, if_neg (by positivity), if_pos hin]
    · intro h hin
      unfold pyth_price_components_to_i80f48 checkedMul EXP_10
      rw [if_neg (by omega), if_neg (by omega), if_pos hin]

/-- Evaluation of the pyth rescaling at concrete exponents: mantissa 123456
with exponent -3 gives 123.456, with exponent 0 gives 123456, with exponent 2
gives 12345600; the EMA record answers the TimeWeighted query. -/
theorem pyth_scaling_example :
    pyth_price_components_to_i80f48 (123456 : ℚ) (-3) = .ok (123456 / 1000) ∧
    pyth_price_components_to_i80f48 (123456 : ℚ) 0 = .ok 123456 ∧
    pyth_price_components_to_i80f48 (123456 : ℚ) 2 = .ok 12345600 ∧
    PythPushOraclePriceFeed.get_price_of_type
      { price := { price := 5, conf := 0, exponent := 0, publish_time := 0 }
        ema_price := { price := 9, conf := 0, exponent := 0, publish_time := 0 } }
      .timeWeighted none 0 = .ok 9 ∧
    PythPushOraclePriceFeed.get_price_of_type
      { price := { price := 5, conf := 0, exponent := 0, publish_time := 0 }
        ema_price := { price := 9, conf := 0, exponent := 0, publish_time := 0 } }
      .realTime none 0 = .ok 5 := by
  refine ⟨?_, ?_, ?_, ?_, ?_⟩ <;>
    norm_num [pyth_price_components_to_i80f48, checkedDiv, checkedMul, inI80,
      EXP_10, PythPushOraclePriceFeed.get_price_of_type,
      PythPushOraclePriceFeed.get_ema_price,
      PythPushOraclePriceFeed.get_unweighted_price]

/-- Construction of a pyth feed returns a value or an error, never a
panic. -/
theorem pyth_load_checked_ne_crash (u : PriceUpdateV2) (now : ℤ) (max_age : ℕ) :
    PythPushOraclePriceFeed.load_checked u now max_age ≠ .crash := by
  unfold PythPushOraclePriceFeed.load_checked
  split
  · simp
  · split <;> simp


/-- C9 counterexample. The claim says construction of the staked variant
fails whenever the liquidity-token supply is zero and OTHERWISE rescales the
prices. With a non-zero supply (one) but a stake-pool balance below one
native unit of principal (zero), the source does not rescale: the checked
subtraction of one SOL of principal fails first, so construction returns an
arithmetic error. -/
theorem c9_counterexample_small_stake :
    (1 : ℕ) ≠ 0 ∧
    OraclePriceFeedAdapter.try_from_config_staked 0 1 pythUpdateSimple 100 10
      = .fail .mathError := by
  exact ⟨by decide, by decide⟩

/-- C9 (amended). Construction of the staked variant fails whenever the
liquidity-token supply is zero (first conjunct; the error is the zero-supply
error when the principal subtraction succeeded, an arithmetic error
otherwise); and when the supply is non-zero, the stake-pool balance is at
least one native unit of principal, the base feed loads, and the rescaled
mantissas fit i64, it rescales the price and the EMA price by the ratio
(stake minus one native unit) over the supply, in truncating integer
arithmetic. -/
theorem c9_staked_construction :
    ∀ (stake lst_supply : ℕ) (u : PriceUpdateV2) (now : ℤ) (max_age : ℕ)
      (f : PythPushOraclePriceFeed),
      (lst_supply = 0 →
        (OraclePriceFeedAdapter.try_from_config_staked stake lst_supply u now
          max_age).isFail) ∧
      (1000000000 ≤ stake → lst_supply ≠ 0 →
        PythPushOraclePriceFeed.load_checked u now max_age = .ok f →
        inI128 (f.price.price * ((stake : ℤ) - 1000000000)) →
        inI128 (f.ema_price.price * ((stake : ℤ) - 1000000000)) →
        inI64 ((f.price.price * ((stake : ℤ) - 1000000000)).tdiv lst_supply) →
        inI64 ((f.ema_price.price * ((stake : ℤ) - 1000000000)).tdiv lst_supply) →
        OraclePriceFeedAdapter.try_from_config_staked stake lst_supply u now max_age
          = .ok (.pythPushOracle
            { price := { f.price with
                price := (f.price.price * ((stake : ℤ) - 1000000000)).tdiv lst_supply }
              ema_price := { f.ema_price with
                price := (f.ema_price.price * ((stake : ℤ) - 1000000000)).tdiv
                  lst_supply } })) := by
  intro stake lst_supply u now max_age f
  constructor
  · intro hz
    unfold OraclePriceFeedAdapter.try_from_config_staked
    by_cases hs : stake < 1000000000
    · rw [if_pos hs]
      simp [MResult.isFail]
    · rw [if_neg hs]
      cases hload : PythPushOraclePriceFeed.load_checked u now max_age with
      | ok g =>
        simp only [MResult.bind_ok]
        rw [if_pos hz]
        simp [MResult.isFail]
      | fail e =>
        simp [MResult.isFail]
      | crash =>
        exact absurd hload (pyth_load_checked_ne_crash u now max_age)
  · intro hstake hz hload h128a h128b h64a h64b
    unfold OraclePriceFeedAdapter.try_from_config_staked
    rw [if_neg (by omega), hload]
    simp only [MResult.bind_ok]
    rw [if_neg hz]
    unfold i128CheckedMul i128CheckedDiv i64FromI128Unwrap
    rw [if_pos h128a]
    simp only [MResult.bind_ok]
    rw [if_neg (show ¬ ((lst_supply : ℤ) = 0) from by exact_mod_cast hz)]
    rw [if_pos (show inI128 ((f.price.price * ((stake : ℤ) - 1000000000)).tdiv lst_supply)
      from by unfold inI64 at h64a; unfold inI128; omega)]
    simp only [MResult.bind_ok]
    rw [if_pos h64a]
    simp only [MResult.bind_ok]
    rw [if_pos h128b]
    simp only [MResult.bind_ok]
    rw [if_neg (show ¬ ((lst_supply : ℤ) = 0) from by exact_mod_cast hz)]
    rw [if_pos (show inI128 ((f.ema_price.price * ((stake : ℤ) - 1000000000)).tdiv lst_supply)
      from by unfold inI64 at h64b; unfold inI128; omega)]
    simp only [MResult.bind_ok]
    rw [if_pos h64b]
    simp only [MResult.bind_ok]

/-- Evaluation of the staked rescaling at a concrete input: stake 3 SOL,
supply 4 SOL worth of tokens, so the ratio is (3 SOL - 1 SOL) / 4 SOL = 1/2:
price 80 becomes 40, EMA 60 becomes 30. -/
theorem staked_rescale_example :
    OraclePriceFeedAdapter.try_from_config_staked 3000000000 4000000000
      pythUpdateSimple 100 10
      = .ok (.pythPushOracle
        { price := { price := 40, conf := 1, exponent := 0, publish_time := 100 }
          ema_price := { price := 30, conf := 1, exponent := 0, publish_time := 100 } }) := by
  decide


/-- The rescaling helper of the source agrees with the spec-side sign-aware
scaling whenever the result is representable. -/
theorem pyth_components_eq_pythScale (q : ℚ) (e : ℤ) (h : inI80 (pythScale q e)) :
    pyth_price_components_to_i80f48 q e = .ok (pythScale q e) := by
  unfold pyth_price_components_to_i80f48 pythScale checkedDiv checkedMul EXP_10 at *
  by_cases h0 : e = 0
  · rw [if_pos h0]
    rw [if_neg (by omega)] at h ⊢
    simp only [h0, Int.natAbs_zero, pow_zero, mul_one]
  · by_cases hneg : e < 0
    · rw [if_neg h0, if_pos hneg]
      rw [if_pos hneg] at h ⊢
      rw [if_neg (by positivity), if_pos h]
    · rw [if_neg h0, if_neg hneg]
      rw [if_neg hneg] at h ⊢
      rw [if_pos h]

/-- The switchboard price getter agrees with the spec-side price whenever the
value and its rescaling are representable. -/
theorem swb_get_price_eq (sf : SwitchboardPullPriceFeed)
    (h1 : inI80 ((sf.feed.result.value : ℚ)))
    (h2 : inI80 (swbSpecPrice sf)) :
    sf.get_price = .ok (swbSpecPrice sf) := by
  unfold SwitchboardPullPriceFeed.get_price i80FromNum checkedDiv swbSpecPrice at *
  rw [if_pos h1]
  simp only [MResult.bind_ok]
  rw [if_neg (by norm_num [EXP_10, SWB_PRECISION]), if_pos h2]

/-- The threshold fraction is positive. -/
theorem confThreshold_pos (omc : ℕ) : 0 < confThreshold omc := by
  unfold confThreshold U32_MAX_DIV_10 U32_MAX
  split
  · exact_mod_cast Nat.pos_of_ne_zero (by omega)
  · norm_num

theorem checkedMul_ok (a b : ℚ) (h : inI80 (a * b)) : checkedMul a b = .ok (a * b) := by
  unfold checkedMul
  rw [if_pos h]

theorem checkedDiv_ok (a b : ℚ) (hb : b ≠ 0) (h : inI80 (a / b)) :
    checkedDiv a b = .ok (a / b) := by
  unfold checkedDiv
  rw [if_neg hb, if_pos h]

theorem checkedSub_ok (a b : ℚ) (h : inI80 (a - b)) : checkedSub a b = .ok (a - b) := by
  unfold checkedSub
  rw [if_pos h]

theorem checkedAdd_ok (a b : ℚ) (h : inI80 (a + b)) : checkedAdd a b = .ok (a + b) := by
  unfold checkedAdd
  rw [if_pos h]

/-- Characterization of the switchboard confidence-interval computation, in
raw terms: writing interval for the rescaled standard deviation times the
multiplier, price for the rescaled value and thr for the (possibly defaulted)
threshold, the call fails with the max-confidence error exactly when interval
exceeds price thr / U32_MAX, and otherwise returns the minimum of interval
and five percent of price. Requires a non-negative standard deviation (a
negative one can trip an assertion) and representability of every
intermediate. -/
theorem swb_conf_characterization (sf : SwitchboardPullPriceFeed) (omc : ℕ)
    (hsd : 0 ≤ sf.feed.result.std_dev)
    (hv : inI80 ((sf.feed.result.value : ℚ)))
    (hp : inI80 ((sf.feed.result.value : ℚ) / EXP_10 SWB_PRECISION))
    (hsd80 : inI80 ((sf.feed.result.std_dev : ℚ)))
    (hres : inI80 ((sf.feed.result.std_dev : ℚ) / EXP_10 SWB_PRECISION))
    (hint : inI80 ((sf.feed.result.std_dev : ℚ) / EXP_10 SWB_PRECISION * STD_DEV_MULTIPLE))
    (hmul : inI80 ((sf.feed.result.value : ℚ) / EXP_10 SWB_PRECISION * confThreshold omc))
    (hmax : inI80 ((sf.feed.result.value : ℚ) / EXP_10 SWB_PRECISION * confThreshold omc / U32_MAX))
    (hcap : inI80 ((sf.feed.result.value : ℚ) / EXP_10 SWB_PRECISION * MAX_CONF_INTERVAL)) :
    (sf.get_confidence_interval omc = .fail .oracleMaxConfidenceExceeded
      ↔ (sf.feed.result.std_dev : ℚ) / EXP_10 SWB_PRECISION * STD_DEV_MULTIPLE
          > (sf.feed.result.value : ℚ) / EXP_10 SWB_PRECISION * confThreshold omc / U32_MAX) ∧
    ((sf.feed.result.std_dev : ℚ) / EXP_10 SWB_PRECISION * STD_DEV_MULTIPLE
        ≤ (sf.feed.result.value : ℚ) / EXP_10 SWB_PRECISION * confThreshold omc / U32_MAX →
      sf.get_confidence_interval omc
        = .ok (min ((sf.feed.result.std_dev : ℚ) / EXP_10 SWB_PRECISION * STD_DEV_MULTIPLE)
            ((sf.feed.result.value : ℚ) / EXP_10 SWB_PRECISION * MAX_CONF_INTERVAL))) := by
  have hEne : EXP_10 SWB_PRECISION ≠ (0 : ℚ) := by norm_num [EXP_10, SWB_PRECISION]
  have hUne : U32_MAX ≠ (0 : ℚ) := by norm_num [U32_MAX]
  have hgp := swb_get_price_eq sf hv hp
  unfold swbSpecPrice at hgp
  have hintnn : 0 ≤ (sf.feed.result.std_dev : ℚ) / EXP_10 SWB_PRECISION * STD_DEV_MULTIPLE := by
    apply mul_nonneg (div_nonneg (by exact_mod_cast hsd) (by norm_num [EXP_10, SWB_PRECISION]))
    norm_num [STD_DEV_MULTIPLE]
  unfold SwitchboardPullPriceFeed.get_confidence_interval i80FromNum
  rw [if_pos hsd80]
  simp only [MResult.bind_ok]
  rw [checkedDiv_ok _ _ hEne hres]
  simp only [MResult.bind_ok]
  rw [checkedMul_ok _ _ hint]
  simp only [MResult.bind_ok]
  rw [hgp]
  simp only [MResult.bind_ok]
  rw [show (if omc > 0 then ((omc : ℕ) : ℚ) else U32_MAX_DIV_10) = confThreshold omc from rfl]
  rw [checkedMul_ok _ _ hmul]
  simp only [MResult.bind_ok]
  rw [checkedDiv_ok _ _ hUne hmax]
  simp only [MResult.bind_ok]
  by_cases hgt : (sf.feed.result.std_dev : ℚ) / EXP_10 SWB_PRECISION * STD_DEV_MULTIPLE
      > (sf.feed.result.value : ℚ) / EXP_10 SWB_PRECISION * confThreshold omc / U32_MAX
  · rw [if_pos hgt]
    exact ⟨by simp [hgt], fun hle => absurd hle (not_le.mpr hgt)⟩
  · rw [if_neg hgt]
    have hmaxnn : 0 ≤ (sf.feed.result.value : ℚ) / EXP_10 SWB_PRECISION * confThreshold omc / U32_MAX :=
      le_trans hintnn (not_lt.mp hgt)
    have hptnn : 0 ≤ (sf.feed.result.value : ℚ) / EXP_10 SWB_PRECISION * confThreshold omc := by
      have heq : (sf.feed.result.value : ℚ) / EXP_10 SWB_PRECISION * confThreshold omc
          = ((sf.feed.result.value : ℚ) / EXP_10 SWB_PRECISION * confThreshold omc / U32_MAX) * U32_MAX := by
        field_simp
        ring
      rw [heq]
      exact mul_nonneg hmaxnn (by norm_num [U32_MAX])
    have hpnn : 0 ≤ (sf.feed.result.value : ℚ) / EXP_10 SWB_PRECISION := by
      by_contra hneg
      exact absurd hptnn (not_le.mpr (mul_neg_of_neg_of_pos (not_le.mp hneg) (confThreshold_pos omc)))
    have hcapnn : 0 ≤ (sf.feed.result.value : ℚ) / EXP_10 SWB_PRECISION * MAX_CONF_INTERVAL :=
      mul_nonneg hpnn (by norm_num [MAX_CONF_INTERVAL])
    rw [checkedMul_ok _ _ hcap]
    simp only [MResult.bind_ok]
    rw [if_neg (not_not_intro hcapnn), if_neg (not_not_intro hintnn)]
    exact ⟨by simp [hgt], fun _ => rfl⟩

/-- The pyth interval quantity is non-negative: the raw confidence is a u64
and the power-of-ten rescaling preserves sign. -/
theorem pythScale_conf_nonneg (c : ℕ) (e : ℤ) : 0 ≤ pythScale (c : ℚ) e := by
  unfold pythScale
  split <;> positivity

/-- Characterization of the pyth confidence-interval computation, in raw
terms over the record the query selects: the call fails with the
max-confidence error exactly when the rescaled confidence times the
multiplier exceeds price thr / U32_MAX, and otherwise returns the minimum of
that interval and five percent of price, whenever every intermediate is
representable. No sign condition is needed: the raw confidence is
unsigned. -/
theorem pyth_conf_characterization (pf : PythPushOraclePriceFeed) (use_ema : Bool)
    (omc : ℕ)
    (hconf : inI80 (pythScale ((pythSel pf use_ema).conf : ℚ) (pythSel pf use_ema).exponent))
    (hint : inI80 (pythScale ((pythSel pf use_ema).conf : ℚ) (pythSel pf use_ema).exponent
      * CONF_INTERVAL_MULTIPLE))
    (hprice : inI80 (pythScale ((pythSel pf use_ema).price : ℚ) (pythSel pf use_ema).exponent))
    (hmul : inI80 (pythScale ((pythSel pf use_ema).price : ℚ) (pythSel pf use_ema).exponent
      * confThreshold omc))
    (hmax : inI80 (pythScale ((pythSel pf use_ema).price : ℚ) (pythSel pf use_ema).exponent
      * confThreshold omc / U32_MAX))
    (hcap : inI80 (pythScale ((pythSel pf use_ema).price : ℚ) (pythSel pf use_ema).exponent
      * MAX_CONF_INTERVAL)) :
    (pf.get_confidence_interval use_ema omc = .fail .oracleMaxConfidenceExceeded
      ↔ pythScale ((pythSel pf use_ema).conf : ℚ) (pythSel pf use_ema).exponent
            * CONF_INTERVAL_MULTIPLE
          > pythScale ((pythSel pf use_ema).price : ℚ) (pythSel pf use_ema).exponent
            * confThreshold omc / U32_MAX) ∧
    (pythScale ((pythSel pf use_ema).conf : ℚ) (pythSel pf use_ema).exponent
          * CONF_INTERVAL_MULTIPLE
        ≤ pythScale ((pythSel pf use_ema).price : ℚ) (pythSel pf use_ema).exponent
          * confThreshold omc / U32_MAX →
      pf.get_confidence_interval use_ema omc
        = .ok (min
            (pythScale ((pythSel pf use_ema).conf : ℚ) (pythSel pf use_ema).exponent
              * CONF_INTERVAL_MULTIPLE)
            (pythScale ((pythSel pf use_ema).price : ℚ) (pythSel pf use_ema).exponent
              * MAX_CONF_INTERVAL))) := by
  have hUne : U32_MAX ≠ (0 : ℚ) := by norm_num [U32_MAX]
  have hintnn : 0 ≤ pythScale ((pythSel pf use_ema).conf : ℚ) (pythSel pf use_ema).exponent
      * CONF_INTERVAL_MULTIPLE := by
    apply mul_nonneg (pythScale_conf_nonneg _ _)
    norm_num [CONF_INTERVAL_MULTIPLE]
  unfold PythPushOraclePriceFeed.get_confidence_interval
  rw [show (if use_ema then pf.ema_price else pf.price) = pythSel pf use_ema from rfl]
  simp only [MResult.bind_ok]
  rw [pyth_components_eq_pythScale _ _ hconf]
  simp only [MResult.bind_ok]
  rw [checkedMul_ok _ _ hint]
  simp only [MResult.bind_ok]
  rw [pyth_components_eq_pythScale _ _ hprice]
  simp only [MResult.bind_ok]
  rw [show (if omc > 0 then ((omc : ℕ) : ℚ) else U32_MAX_DIV_10) = confThreshold omc from rfl]
  rw [checkedMul_ok _ _ hmul]
  simp only [MResult.bind_ok]
  rw [checkedDiv_ok _ _ hUne hmax]
  simp only [MResult.bind_ok]
  by_cases hgt : pythScale ((pythSel pf use_ema).conf : ℚ) (pythSel pf use_ema).exponent
        * CONF_INTERVAL_MULTIPLE
      > pythScale ((pythSel pf use_ema).price : ℚ) (pythSel pf use_ema).exponent
        * confThreshold omc / U32_MAX
  · rw [if_pos hgt]
    exact ⟨by simp [hgt], fun hle => absurd hle (not_le.mpr hgt)⟩
  · rw [if_neg hgt]
    have hmaxnn : 0 ≤ pythScale ((pythSel pf use_ema).price : ℚ) (pythSel pf use_ema).exponent
        * confThreshold omc / U32_MAX := le_trans hintnn (not_lt.mp hgt)
    have hptnn : 0 ≤ pythScale ((pythSel pf use_ema).price : ℚ) (pythSel pf use_ema).exponent
        * confThreshold omc := by
      have heq : pythScale ((pythSel pf use_ema).price : ℚ) (pythSel pf use_ema).exponent
          * confThreshold omc
          = (pythScale ((pythSel pf use_ema).price : ℚ) (pythSel pf use_ema).exponent
              * confThreshold omc / U32_MAX) * U32_MAX := by
        field_simp
      rw [heq]
      exact mul_nonneg hmaxnn (by norm_num [U32_MAX])
    have hpnn : 0 ≤ pythScale ((pythSel pf use_ema).price : ℚ) (pythSel pf use_ema).exponent := by
      by_contra hneg
      exact absurd hptnn (not_le.mpr (mul_neg_of_neg_of_pos (not_le.mp hneg) (confThreshold_pos omc)))
    have hcapnn : 0 ≤ pythScale ((pythSel pf use_ema).price : ℚ) (pythSel pf use_ema).exponent
        * MAX_CONF_INTERVAL := mul_nonneg hpnn (by norm_num [MAX_CONF_INTERVAL])
    rw [checkedMul_ok _ _ hcap]
    simp only [MResult.bind_ok]
    rw [if_neg (not_not_intro hcapnn), if_neg (not_not_intro hintnn)]
    exact ⟨by simp [hgt], fun _ => rfl⟩


/-- C4 counterexample. The claim says a biased query fails with the
max-confidence error exactly when the computed interval exceeds the
threshold, and OTHERWISE applies the minimum of the interval and five percent
of price. On a feed with a negative standard deviation the computed interval
(about -1.96) does not exceed the threshold (first conjunct, with
oracle_max_confidence at 100 percent), yet the query neither fails with that
error nor applies an interval: it panics on the non-negativity assertion
(second conjunct). -/
theorem c4_counterexample_negative_std_dev :
    swbSpecInterval negStdDevFeed
      ≤ specMaxConf (swbSpecPrice negStdDevFeed) 4294967295 ∧
    SwitchboardPullPriceFeed.get_price_of_type negStdDevFeed .realTime
      (some .low) 4294967295 = .crash := by
  constructor
  · norm_num [swbSpecInterval, specMaxConf, swbSpecPrice, negStdDevFeed,
      confThreshold, STD_DEV_MULTIPLE, U32_MAX, EXP_10, SWB_PRECISION]
  · norm_num [SwitchboardPullPriceFeed.get_price_of_type,
      SwitchboardPullPriceFeed.get_confidence_interval,
      SwitchboardPullPriceFeed.get_price, negStdDevFeed, i80FromNum,
      checkedDiv, checkedMul, inI80, EXP_10, SWB_PRECISION, STD_DEV_MULTIPLE,
      U32_MAX, U32_MAX_DIV_10, MAX_CONF_INTERVAL]

/-- C4 (amended). With the default constants pinned (a zero
oracle_max_confidence uses the ten-percent default; the unconditional cap is
five percent), and for feeds whose raw confidence field is non-negative (the
switchboard std_dev can be negative and then trips an assertion, see the
counterexample; the pyth confidence is unsigned so it needs no such
condition) and whose intermediates are representable: the computed interval
is the rescaled raw confidence times the fixed multiplier, the query fails
with the max-confidence error exactly when that interval exceeds price times
the (possibly defaulted) threshold fraction, otherwise the interval returned
— and then added or subtracted by a biased query — is the minimum of the
computed interval and five percent of the price. -/
theorem c4_confidence_interval_behaviour :
    (confThreshold 0 = U32_MAX_DIV_10 ∧ U32_MAX_DIV_10 = U32_MAX / 10 ∧
      MAX_CONF_INTERVAL = 5 / 100) ∧
    (∀ (sf : SwitchboardPullPriceFeed) (omc : ℕ),
      0 ≤ sf.feed.result.std_dev →
      inI80 ((sf.feed.result.value : ℚ)) →
      inI80 (swbSpecPrice sf) →
      inI80 ((sf.feed.result.std_dev : ℚ)) →
      inI80 ((sf.feed.result.std_dev : ℚ) / EXP_10 SWB_PRECISION) →
      inI80 (swbSpecInterval sf) →
      inI80 (swbSpecPrice sf * confThreshold omc) →
      inI80 (specMaxConf (swbSpecPrice sf) omc) →
      inI80 (swbSpecPrice sf * MAX_CONF_INTERVAL) →
      ((sf.get_confidence_interval omc = .fail .oracleMaxConfidenceExceeded
          ↔ swbSpecInterval sf > specMaxConf (swbSpecPrice sf) omc) ∧
        (swbSpecInterval sf ≤ specMaxConf (swbSpecPrice sf) omc →
          sf.get_confidence_interval omc
            = .ok (min (swbSpecInterval sf) (swbSpecPrice sf * MAX_CONF_INTERVAL))))) ∧
    (∀ (pf : PythPushOraclePriceFeed) (use_ema : Bool) (omc : ℕ),
      inI80 (pythScale ((pythSel pf use_ema).conf : ℚ) (pythSel pf use_ema).exponent) →
      inI80 (pythSpecInterval pf use_ema) →
      inI80 (pythSpecPrice pf use_ema) →
      inI80 (pythSpecPrice pf use_ema * confThreshold omc) →
      inI80 (specMaxConf (pythSpecPrice pf use_ema) omc) →
      inI80 (pythSpecPrice pf use_ema * MAX_CONF_INTERVAL) →
      ((pf.get_confidence_interval use_ema omc = .fail .oracleMaxConfidenceExceeded
          ↔ pythSpecInterval pf use_ema > specMaxConf (pythSpecPrice pf use_ema) omc) ∧
        (pythSpecInterval pf use_ema ≤ specMaxConf (pythSpecPrice pf use_ema) omc →
          pf.get_confidence_interval use_ema omc
            = .ok (min (pythSpecInterval pf use_ema)
                (pythSpecPrice pf use_ema * MAX_CONF_INTERVAL))))) ∧
    (∀ (sf : SwitchboardPullPriceFeed) (omc : ℕ) (p r : ℚ) (pt : OraclePriceType),
      sf.get_price = .ok p → sf.get_confidence_interval omc = .ok r →
      (inI80 (p - r) → sf.get_price_of_type pt (some .low) omc = .ok (p - r)) ∧
      (inI80 (p + r) → sf.get_price_of_type pt (some .high) omc = .ok (p + r))) ∧
    (∀ (pf : PythPushOraclePriceFeed) (omc : ℕ) (p r : ℚ),
      (pf.get_unweighted_price = .ok p →
        pf.get_confidence_interval false omc = .ok r →
        (inI80 (p - r) → pf.get_price_of_type .realTime (some .low) omc = .ok (p - r)) ∧
        (inI80 (p + r) → pf.get_price_of_type .realTime (some .high) omc = .ok (p + r))) ∧
      (pf.get_ema_price = .ok p →
        pf.get_confidence_interval true omc = .ok r →
        (inI80 (p - r) → pf.get_price_of_type .timeWeighted (some .low) omc = .ok (p - r)) ∧
        (inI80 (p + r) →
          pf.get_price_of_type .timeWeighted (some .high) omc = .ok (p + r)))) := by
  refine ⟨⟨by norm_num [confThreshold], rfl, rfl⟩, ?_, ?_, ?_, ?_⟩
  · intro sf omc h1 h2 h3 h4 h5 h6 h7 h8 h9
    exact swb_conf_characterization sf omc h1 h2 h3 h4 h5 h6 h7 h8 h9
  · intro pf use_ema omc h1 h2 h3 h4 h5 h6
    exact pyth_conf_characterization pf use_ema omc h1 h2 h3 h4 h5 h6
  · intro sf omc p r pt hp hr
    unfold SwitchboardPullPriceFeed.get_price_of_type
    rw [hp]
    simp only [MResult.bind_ok]
    rw [hr]
    simp only [MResult.bind_ok]
    exact ⟨fun h => checkedSub_ok p r h, fun h => checkedAdd_ok p r h⟩
  · intro pf omc p r
    constructor
    · intro hp hr
      unfold PythPushOraclePriceFeed.get_price_of_type
      simp only []
      rw [hp]
      simp only [MResult.bind_ok]
      rw [show (decide (OraclePriceType.realTime = OraclePriceType.timeWeighted)) = false
        from rfl]
      rw [hr]
      simp only [MResult.bind_ok]
      exact ⟨fun h => checkedSub_ok p r h, fun h => checkedAdd_ok p r h⟩
    · intro hp hr
      unfold PythPushOraclePriceFeed.get_price_of_type
      simp only []
      rw [hp]
      simp only [MResult.bind_ok]
      rw [show (decide True) = true from rfl]
      rw [hr]
      simp only [MResult.bind_ok]
      exact ⟨fun h => checkedSub_ok p r h, fun h => checkedAdd_ok p r h⟩


/-- The confidence-cap scenario of the spec at concrete inputs: an interval
of 19.6 percent of price with oracle_max_confidence unset fails against the
default ten percent; with oracle_max_confidence at 100 percent the query
succeeds and the applied interval is the five percent cap, not 19.6
percent. -/
theorem confidence_cap_example :
    SwitchboardPullPriceFeed.get_confidence_interval conf196Feed 0
      = .fail .oracleMaxConfidenceExceeded ∧
    SwitchboardPullPriceFeed.get_confidence_interval conf196Feed 4294967295
      = .ok (5 / 100) ∧
    SwitchboardPullPriceFeed.get_price_of_type conf196Feed .realTime (some .low)
      4294967295 = .ok (1 - 5 / 100) := by
  refine ⟨?_, ?_, ?_⟩ <;>
    norm_num [SwitchboardPullPriceFeed.get_price_of_type,
      SwitchboardPullPriceFeed.get_confidence_interval,
      SwitchboardPullPriceFeed.get_price, conf196Feed, i80FromNum,
      checkedDiv, checkedMul, checkedSub, inI80, EXP_10, SWB_PRECISION,
      STD_DEV_MULTIPLE, U32_MAX, U32_MAX_DIV_10, MAX_CONF_INTERVAL, min_def]
